import Mathlib

/-!
# Verification of the postgres-mcp JSON codec and explain-query dispatch

Shallow embedding of `src/postgres_mcp/json_utils.py` (the type-normalizing
codec built on `orjson` with the `_default` handler) together with the
`explain_query` missing-extension path, and proofs of the specification's
claims about them.

Python values are modelled by the inductive `PyVal`; JSON documents produced
by the serializer by the inductive `Json`.  Machine floats are modelled as
exact rationals (the embedding abstracts IEEE rounding), arbitrary-precision
decimals as mantissa/exponent pairs, and `bytes`/`memoryview` as lists of
bytes.  A Python `set`/`frozenset` carries its elements in the enumeration
order of the current run; `SetOrd`, a permutation-producing oracle, models
the iteration-order environment of another run, since the language does not
fix an enumeration order for hash sets.
-/

namespace PostgresMcp

/-- Model of `decimal.Decimal`: value is `mant * 10 ^ exp`. -/
structure PyDecimal where
  mant : Int
  exp : Int
  deriving DecidableEq, Repr

/-- Model of `datetime.timedelta` in CPython's normalized representation:
`days` may be negative, `seconds ∈ [0, 86400)`, `microseconds ∈ [0, 10^6)`. -/
structure PyTimedelta where
  days : Int
  seconds : Fin 86400
  microseconds : Fin 1000000
  deriving DecidableEq, Repr

/-- Model of `datetime.datetime` (fields as in CPython; `tzOffsetMinutes`
is `none` for a naive datetime, `some m` for a fixed-offset timezone). -/
structure PyDatetime where
  year : Nat
  month : Nat
  day : Nat
  hour : Nat
  minute : Nat
  second : Nat
  microsecond : Nat
  tzOffsetMinutes : Option Int
  deriving DecidableEq, Repr

/-- Model of `datetime.date`. -/
structure PyDate where
  year : Nat
  month : Nat
  day : Nat
  deriving DecidableEq, Repr

/-- Model of a naive `datetime.time`. -/
structure PyTime where
  hour : Nat
  minute : Nat
  second : Nat
  microsecond : Nat
  deriving DecidableEq, Repr

/-- Model of the Python values that can reach the codec: the JSON-native
kinds, the types `orjson` serializes natively (`datetime`, `date`, `time`,
`uuid.UUID`), the PostgreSQL types covered by `_default` (`Decimal`,
`timedelta`, `bytes`, `memoryview`, `set`, `frozenset`), and `object ty`
for a value of any other type, carrying only its type name `ty`. -/
inductive PyVal where
  | none
  | boolean (b : Bool)
  | int (n : Int)
  | float (q : Rat)
  | str (s : String)
  | list (xs : List PyVal)
  | dict (kvs : List (String × PyVal))
  | datetime (dt : PyDatetime)
  | date (d : PyDate)
  | time (t : PyTime)
  | uuid (u : Nat)
  | decimal (d : PyDecimal)
  | timedelta (td : PyTimedelta)
  | bytes (bs : List (Fin 256))
  | memoryview (bs : List (Fin 256))
  | set (xs : List PyVal)
  | frozenset (xs : List PyVal)
  | object (typeName : String)

/-- JSON documents, as produced by `orjson.dumps`: integers and floats are
distinct JSON number shapes (`orjson` round-trips the distinction). -/
inductive Json where
  | null
  | bool (b : Bool)
  | int (n : Int)
  | float (q : Rat)
  | str (s : String)
  | arr (xs : List Json)
  | obj (kvs : List (String × Json))

/-- `w`-digit zero-padded decimal rendering of a nonnegative number
(CPython's `"%0wd"`). -/
def padZero (w : Nat) (n : Nat) : String :=
  String.mk (List.replicate (w - (toString n).length) '0') ++ toString n

/-- Lowercase hexadecimal digit for `n < 16`, as used by CPython's
`bytes.hex` and the `uuid` string form. -/
def hexChar (n : Nat) : Char :=
  if n < 10 then Char.ofNat (48 + n) else Char.ofNat (87 + n)

/-- `w`-digit zero-padded lowercase hexadecimal rendering of `n`. -/
def hexPad (w : Nat) (n : Nat) : List Char :=
  (List.range w).reverse.map (fun i => hexChar (n / 16 ^ i % 16))

/-- `bytes.hex()` (and `memoryview.tobytes().hex()`): two lowercase hex
digits per byte, in order. -/
def bytesHex (bs : List (Fin 256)) : String :=
  String.mk (bs.foldr (fun b acc => hexChar (b.val / 16) :: hexChar (b.val % 16) :: acc) [])

/-- CPython `datetime.timedelta.__str__`: `"[D day(s), ]H:MM:SS[.ffffff]"`
with unpadded hours; the day prefix and microsecond suffix appear only when
the corresponding field is nonzero, and `day` is pluralized unless the day
count's absolute value is 1. -/
def strTimedelta (td : PyTimedelta) : String :=
  let mm := td.seconds.val / 60
  let ss := td.seconds.val % 60
  let core := toString (mm / 60) ++ ":" ++ padZero 2 (mm % 60) ++ ":" ++ padZero 2 ss
  let withDays :=
    if td.days = 0 then core
    else toString td.days ++ (if td.days.natAbs = 1 then " day, " else " days, ") ++ core
  if td.microseconds.val = 0 then withDays
  else withDays ++ "." ++ padZero 6 td.microseconds.val

/-- Sign-aware `±HH:MM` UTC-offset suffix (offset given in minutes). -/
def formatOffset (m : Int) : String :=
  (if m < 0 then "-" else "+") ++ padZero 2 (m.natAbs / 60) ++ ":" ++ padZero 2 (m.natAbs % 60)

/-- Fractional-second suffix: `".ffffff"` exactly when the microsecond
field is nonzero (CPython `isoformat`, kept by `orjson`). -/
def fracSuffix (us : Nat) : String :=
  if us = 0 then "" else "." ++ padZero 6 us

/-- `orjson`'s native `datetime.date` serialization: ISO-8601 `YYYY-MM-DD`. -/
def formatDate (d : PyDate) : String :=
  padZero 4 d.year ++ "-" ++ padZero 2 d.month ++ "-" ++ padZero 2 d.day

/-- `orjson`'s native `datetime.time` serialization: `HH:MM:SS[.ffffff]`. -/
def formatTime (t : PyTime) : String :=
  padZero 2 t.hour ++ ":" ++ padZero 2 t.minute ++ ":" ++ padZero 2 t.second
    ++ fracSuffix t.microsecond

/-- `orjson`'s native `datetime.datetime` serialization (RFC 3339 /
`isoformat`): date, `T`, time, then the UTC offset when timezone-aware. -/
def formatDatetime (dt : PyDatetime) : String :=
  padZero 4 dt.year ++ "-" ++ padZero 2 dt.month ++ "-" ++ padZero 2 dt.day ++ "T"
    ++ padZero 2 dt.hour ++ ":" ++ padZero 2 dt.minute ++ ":" ++ padZero 2 dt.second
    ++ fracSuffix dt.microsecond
    ++ (match dt.tzOffsetMinutes with
        | Option.none => ""
        | Option.some m => formatOffset m)

/-- `orjson`'s native `uuid.UUID` serialization: lowercase hyphenated
`8-4-4-4-12` hex rendering of the 128-bit value. -/
def formatUuid (u : Nat) : String :=
  String.mk (hexPad 8 (u / 2 ^ 96 % 2 ^ 32)) ++ "-"
    ++ String.mk (hexPad 4 (u / 2 ^ 80 % 2 ^ 16)) ++ "-"
    ++ String.mk (hexPad 4 (u / 2 ^ 64 % 2 ^ 16)) ++ "-"
    ++ String.mk (hexPad 4 (u / 2 ^ 48 % 2 ^ 16)) ++ "-"
    ++ String.mk (hexPad 12 (u % 2 ^ 48))

/-- Exact numeric value of a `decimal.Decimal`. -/
def decValue (d : PyDecimal) : Rat := (d.mant : Rat) * (10 : Rat) ^ d.exp

/-- Python `int(·)` on a number: truncation toward zero. -/
def pyTrunc (q : Rat) : Int := if 0 ≤ q then ⌊q⌋ else ⌈q⌉

/-- The `decimal.Decimal` arm of `_default` (json_utils.py lines 22-23):
`int(obj) if obj == obj.to_integral_value() else float(obj)`.
`to_integral_value` rounds the value to an integer (its half-even tie rule
cannot affect whether the value *equals* its own rounding); the float
conversion is modelled exactly. -/
def decimalDefault (d : PyDecimal) : PyVal :=
  if decValue d = (round (decValue d) : Rat) then PyVal.int (pyTrunc (decValue d))
  else PyVal.float (decValue d)

/-- The set iteration-order environment: Python fixes no enumeration order
for `set`/`frozenset`, so serialization is parameterized by an oracle that
permutes each set's stored element list into the order iteration yields. -/
def SetOrd : Type := (xs : List PyVal) → { ys : List PyVal // ys.Perm xs }

/-- The identity enumeration order (iteration yields the stored order). -/
def idOrd : SetOrd := fun xs => ⟨xs, List.Perm.refl xs⟩

/-- `orjson`'s 64-bit window for serializing a Python `int`: it accepts the
i64/u64 range and raises `TypeError` outside it. -/
def dumpInt (n : Int) : Except String Json :=
  if -(2 ^ 63) ≤ n ∧ n < 2 ^ 64 then Except.ok (Json.int n)
  else Except.error "Integer exceeds 64-bit range"

mutual

/-- `orjson.dumps(obj, default=_default)` down to the JSON document tree.
The native arms (`None`, `bool`, `int`, `float`, `str`, `list`, `dict`,
`datetime`, `date`, `time`, `UUID`) are orjson's own serialization; the
`decimal`, `timedelta`, `bytes`, `memoryview`, `set`/`frozenset` and
`object` arms are the `_default` handler of json_utils.py lines 10-32
(first match wins, in source order), whose return value orjson then
serializes natively — in particular an `int` returned for a `Decimal` is
subject to the same 64-bit window, and a `list` returned for a set has its
elements serialized recursively.  The element list of a `set`/`frozenset`
is its stored enumeration order for the current run; `reorderSets` below
models a run under a different iteration-order environment. -/
def dumpsTree : PyVal → Except String Json
  | PyVal.none => Except.ok Json.null
  | PyVal.boolean b => Except.ok (Json.bool b)
  | PyVal.int n => dumpInt n
  | PyVal.float q => Except.ok (Json.float q)
  | PyVal.str s => Except.ok (Json.str s)
  | PyVal.list xs => do Except.ok (Json.arr (← dumpsList xs))
  | PyVal.dict kvs => do Except.ok (Json.obj (← dumpsDict kvs))
  | PyVal.datetime dt => Except.ok (Json.str (formatDatetime dt))
  | PyVal.date d => Except.ok (Json.str (formatDate d))
  | PyVal.time t => Except.ok (Json.str (formatTime t))
  | PyVal.uuid u => Except.ok (Json.str (formatUuid u))
  | PyVal.decimal d =>
      if decValue d = (round (decValue d) : Rat) then dumpInt (pyTrunc (decValue d))
      else Except.ok (Json.float (decValue d))
  | PyVal.timedelta td => Except.ok (Json.str (strTimedelta td))
  | PyVal.bytes bs => Except.ok (Json.str (bytesHex bs))
  | PyVal.memoryview bs => Except.ok (Json.str (bytesHex bs))
  | PyVal.set xs => do Except.ok (Json.arr (← dumpsList xs))
  | PyVal.frozenset xs => do Except.ok (Json.arr (← dumpsList xs))
  | PyVal.object ty => Except.error ("Object of type " ++ ty ++ " is not JSON serializable")

/-- Elementwise serialization of a Python list's contents. -/
def dumpsList : List PyVal → Except String (List Json)
  | [] => Except.ok []
  | x :: xs => do Except.ok ((← dumpsTree x) :: (← dumpsList xs))

/-- Entrywise serialization of a Python dict's contents, key order kept. -/
def dumpsDict : List (String × PyVal) → Except String (List (String × Json))
  | [] => Except.ok []
  | (k, v) :: kvs => do Except.ok ((k, ← dumpsTree v) :: (← dumpsDict kvs))

end

mutual

/-- `orjson.loads` on a dumped document: every JSON node maps back to a
JSON-native Python kind; object key order is preserved. -/
def loadsTree : Json → PyVal
  | Json.null => PyVal.none
  | Json.bool b => PyVal.boolean b
  | Json.int n => PyVal.int n
  | Json.float q => PyVal.float q
  | Json.str s => PyVal.str s
  | Json.arr xs => PyVal.list (loadsList xs)
  | Json.obj kvs => PyVal.dict (loadsObj kvs)

/-- Elementwise `loads` of an array's contents. -/
def loadsList : List Json → List PyVal
  | [] => []
  | x :: xs => loadsTree x :: loadsList xs

/-- Entrywise `loads` of an object's contents. -/
def loadsObj : List (String × Json) → List (String × PyVal)
  | [] => []
  | (k, v) :: kvs => (k, loadsTree v) :: loadsObj kvs

end

mutual

/-- Every integer leaf of the document lies in `orjson`'s 64-bit window
(true of every document `dumpsTree` emits). -/
def valid64 : Json → Bool
  | Json.int n => decide (-(2 ^ 63) ≤ n ∧ n < 2 ^ 64)
  | Json.arr xs => valid64List xs
  | Json.obj kvs => valid64Obj kvs
  | _ => true

/-- `valid64` over an array's contents. -/
def valid64List : List Json → Bool
  | [] => true
  | x :: xs => valid64 x && valid64List xs

/-- `valid64` over an object's contents. -/
def valid64Obj : List (String × Json) → Bool
  | [] => true
  | (_, v) :: kvs => valid64 v && valid64Obj kvs

end

/-- JSON string escaping as `orjson` performs it (UTF-8 output: only the
quote, the backslash, and control characters are escaped). -/
def escapeChar (c : Char) : List Char :=
  if c = '"' then ['\\', '"']
  else if c = '\\' then ['\\', '\\']
  else if c = '\x08' then ['\\', 'b']
  else if c = '\x0c' then ['\\', 'f']
  else if c = '\n' then ['\\', 'n']
  else if c = '\r' then ['\\', 'r']
  else if c = '\t' then ['\\', 't']
  else if c.toNat < 32 then '\\' :: 'u' :: hexPad 4 c.toNat
  else [c]

/-- Escape a whole string for inclusion in JSON text. -/
def escapeString (s : String) : String :=
  String.mk (s.data.foldr (fun c acc => escapeChar c ++ acc) [])

/-- A run of `n` spaces. -/
def spaces (n : Nat) : String := String.mk (List.replicate n ' ')

/-- Decimal text of a float value. `orjson` prints the shortest decimal
form that round-trips the IEEE double; the claims proved here depend only
on its being a function of the numeric value, so the model prints the
exact rational, integral values in the `X.0` form `orjson` uses for them. -/
def floatRepr (q : Rat) : String :=
  if q.den = 1 then toString q.num ++ ".0" else toString q

mutual

/-- Rendering of a JSON document as `orjson` with `OPT_INDENT_2` emits it:
two-space indentation steps, `": "` key separator, `",\n"` item separator,
empty containers on one line. `ind` is the current indentation width. -/
def renderJson (ind : Nat) : Json → String
  | Json.null => "null"
  | Json.bool b => if b then "true" else "false"
  | Json.int n => toString n
  | Json.float q => floatRepr q
  | Json.str s => "\"" ++ escapeString s ++ "\""
  | Json.arr [] => "[]"
  | Json.arr (x :: xs) =>
      "[\n" ++ renderArr (ind + 2) (x :: xs) ++ "\n" ++ spaces ind ++ "]"
  | Json.obj [] => "\x7b\x7d"
  | Json.obj (kv :: kvs) =>
      "\x7b\n" ++ renderObj (ind + 2) (kv :: kvs) ++ "\n" ++ spaces ind ++ "\x7d"

/-- The lines of an array body, each indented `ind` spaces. -/
def renderArr (ind : Nat) : List Json → String
  | [] => ""
  | [x] => spaces ind ++ renderJson ind x
  | x :: xs => spaces ind ++ renderJson ind x ++ ",\n" ++ renderArr ind xs

/-- The lines of an object body, each indented `ind` spaces. -/
def renderObj (ind : Nat) : List (String × Json) → String
  | [] => ""
  | [(k, v)] => spaces ind ++ "\"" ++ escapeString k ++ "\": " ++ renderJson ind v
  | (k, v) :: kvs =>
      spaces ind ++ "\"" ++ escapeString k ++ "\": " ++ renderJson ind v ++ ",\n"
        ++ renderObj ind kvs

end

/-- `json_utils.to_jsonable`:
`orjson.loads(orjson.dumps(obj, default=_default))`. -/
def to_jsonable (x : PyVal) : Except String PyVal :=
  Except.map loadsTree (dumpsTree x)

/-- `json_utils.to_json`:
`orjson.dumps(obj, default=_default, option=orjson.OPT_INDENT_2).decode()`. -/
def to_json (x : PyVal) : Except String String :=
  Except.map (renderJson 0) (dumpsTree x)

mutual

/-- No `set`/`frozenset` occurs anywhere in the value. -/
def setFree : PyVal → Bool
  | PyVal.list xs => setFreeList xs
  | PyVal.dict kvs => setFreeDict kvs
  | PyVal.set _ => false
  | PyVal.frozenset _ => false
  | _ => true

/-- `setFree` over a list's elements. -/
def setFreeList : List PyVal → Bool
  | [] => true
  | x :: xs => setFree x && setFreeList xs

/-- `setFree` over a dict's values. -/
def setFreeDict : List (String × PyVal) → Bool
  | [] => true
  | (_, v) :: kvs => setFree v && setFreeDict kvs

end

/-- One-hole contexts over Python values: a position at an arbitrary
nesting depth inside lists and dicts. -/
inductive Ctx where
  | hole
  | inList (pre : List PyVal) (c : Ctx) (post : List PyVal)
  | inDict (pre : List (String × PyVal)) (key : String) (c : Ctx) (post : List (String × PyVal))

/-- Plug a value into the hole of a context. -/
def Ctx.fill : Ctx → PyVal → PyVal
  | Ctx.hole, v => v
  | Ctx.inList pre c post, v => PyVal.list (pre ++ c.fill v :: post)
  | Ctx.inDict pre k c post, v => PyVal.dict (pre ++ (k, c.fill v) :: post)

/-- A lowercase hexadecimal digit character. -/
def isLowerHexDigit (c : Char) : Bool :=
  ('0' ≤ c && c ≤ '9') || ('a' ≤ c && c ≤ 'f')

/-- The four kinds `orjson` serializes natively to canonical strings. -/
def isDatetimeLike : PyVal → Bool
  | PyVal.datetime _ => true
  | PyVal.date _ => true
  | PyVal.time _ => true
  | PyVal.uuid _ => true
  | _ => false

/-- Canonical string form of a datetime-like value (ISO-8601 for the
temporal kinds, hyphenated lowercase hex for UUIDs). -/
def canonicalStr : PyVal → String
  | PyVal.datetime dt => formatDatetime dt
  | PyVal.date d => formatDate d
  | PyVal.time t => formatTime t
  | PyVal.uuid u => formatUuid u
  | _ => ""

/-- The reversed enumeration order: a second, different set iteration
order used to exhibit order-independence of set-free serialization. -/
def revOrd : SetOrd := fun xs => ⟨xs.reverse, List.reverse_perm xs⟩

mutual

/-- The value as a run under iteration-order environment `ord` sees it:
every `set`/`frozenset` element list is replaced by the order in which
that run enumerates it; all other structure is untouched.  Serializing
under environment `ord` is `to_json (reorderSets ord x)`. -/
def reorderSets (ord : SetOrd) : PyVal → PyVal
  | PyVal.none => PyVal.none
  | PyVal.boolean b => PyVal.boolean b
  | PyVal.int n => PyVal.int n
  | PyVal.float q => PyVal.float q
  | PyVal.str s => PyVal.str s
  | PyVal.list xs => PyVal.list (reorderList ord xs)
  | PyVal.dict kvs => PyVal.dict (reorderDict ord kvs)
  | PyVal.datetime dt => PyVal.datetime dt
  | PyVal.date d => PyVal.date d
  | PyVal.time t => PyVal.time t
  | PyVal.uuid u => PyVal.uuid u
  | PyVal.decimal d => PyVal.decimal d
  | PyVal.timedelta td => PyVal.timedelta td
  | PyVal.bytes bs => PyVal.bytes bs
  | PyVal.memoryview bs => PyVal.memoryview bs
  | PyVal.set xs => PyVal.set (reorderList ord (ord xs).val)
  | PyVal.frozenset xs => PyVal.frozenset (reorderList ord (ord xs).val)
  | PyVal.object ty => PyVal.object ty
termination_by x => sizeOf x
decreasing_by
  all_goals simp_wf
  all_goals (have h := List.Perm.sizeOf_eq_sizeOf (ord xs).property; omega)

/-- `reorderSets` over a list's elements. -/
def reorderList (ord : SetOrd) : List PyVal → List PyVal
  | [] => []
  | x :: xs => reorderSets ord x :: reorderList ord xs
termination_by xs => sizeOf xs
decreasing_by all_goals (simp_wf; try omega)

/-- `reorderSets` over a dict's values. -/
def reorderDict (ord : SetOrd) : List (String × PyVal) → List (String × PyVal)
  | [] => []
  | (k, v) :: kvs => (k, reorderSets ord v) :: reorderDict ord kvs
termination_by kvs => sizeOf kvs
decreasing_by all_goals (simp_wf; try omega)

end

/-- A hypothetical index hint: target table and its column list. -/
structure HypotheticalIndexSpec where
  table : String
  columns : List String

/-- The environment `explain_query` runs against: the result of
`check_hypopg_installation_status` (installed flag and detail message) and
the text renderings the three plan-generation paths would produce. -/
structure ExplainEnv where
  hypopgInstalled : Bool
  hypopgDetail : String
  planText : String
  analyzePlanText : String
  hypotheticalPlanText : String

/-- Modelled from the spec: `explain_query` of `postgres_mcp/server.py` is
not under `src/` (only its tests are), so its dispatch is modelled from
§4.5/§6 of the specification and the integration tests.  With a non-empty
hypothetical-index list it first consults
`check_hypopg_installation_status`; when the extension is missing it
returns the check's detail message as the response text (it does not
raise) and no plan-generation path runs; when installed it runs the
hypothetical-index explain.  With no index hints it runs the analyze or
plain explain.  The second component records whether a plan-generation
path was invoked. -/
def explain_query (env : ExplainEnv) (_sql : String) (analyze : Bool)
    (hypothetical_indexes : List HypotheticalIndexSpec) : String × Bool :=
  if hypothetical_indexes.isEmpty then
    if analyze then (env.analyzePlanText, true) else (env.planText, true)
  else if env.hypopgInstalled then (env.hypotheticalPlanText, true)
  else (env.hypopgDetail, false)

/-- Inversion of `Except` bind at a successful result. -/
theorem bindOkInv {α β : Type} {x : Except String α} {f : α → Except String β} {b : β}
    (h : x >>= f = Except.ok b) : ∃ a, x = Except.ok a ∧ f a = Except.ok b := by
  cases x with
  | error e => exact absurd h (by simp [Bind.bind, Except.bind])
  | ok a => exact ⟨a, rfl, by simpa [Bind.bind, Except.bind] using h⟩

mutual

/-- Every document the serializer emits has all integer leaves inside the
64-bit window. -/
theorem dumpsTree_valid64 :
    ∀ x j, dumpsTree x = Except.ok j → valid64 j = true
  | PyVal.none, j => by intro h; simp [dumpsTree] at h; subst h; rfl
  | PyVal.boolean b, j => by intro h; simp [dumpsTree] at h; subst h; rfl
  | PyVal.int n, j => by
      intro h
      simp only [dumpsTree, dumpInt] at h
      split at h
      · cases h
        simpa [valid64]
      · cases h
  | PyVal.float q, j => by intro h; simp [dumpsTree] at h; subst h; rfl
  | PyVal.str s, j => by intro h; simp [dumpsTree] at h; subst h; rfl
  | PyVal.list xs, j => by
      intro h
      simp only [dumpsTree] at h
      obtain ⟨js, hjs, h2⟩ := bindOkInv h
      cases h2
      simpa [valid64] using dumpsList_valid64 xs js hjs
  | PyVal.dict kvs, j => by
      intro h
      simp only [dumpsTree] at h
      obtain ⟨js, hjs, h2⟩ := bindOkInv h
      cases h2
      simpa [valid64] using dumpsDict_valid64 kvs js hjs
  | PyVal.datetime dt, j => by intro h; simp [dumpsTree] at h; subst h; rfl
  | PyVal.date d, j => by intro h; simp [dumpsTree] at h; subst h; rfl
  | PyVal.time t, j => by intro h; simp [dumpsTree] at h; subst h; rfl
  | PyVal.uuid u, j => by intro h; simp [dumpsTree] at h; subst h; rfl
  | PyVal.decimal d, j => by
      intro h
      simp only [dumpsTree, dumpInt] at h
      split at h
      · split at h
        · cases h
          simpa [valid64]
        · cases h
      · cases h
        rfl
  | PyVal.timedelta td, j => by intro h; simp [dumpsTree] at h; subst h; rfl
  | PyVal.bytes bs, j => by intro h; simp [dumpsTree] at h; subst h; rfl
  | PyVal.memoryview bs, j => by intro h; simp [dumpsTree] at h; subst h; rfl
  | PyVal.set xs, j => by
      intro h
      simp only [dumpsTree] at h
      obtain ⟨js, hjs, h2⟩ := bindOkInv h
      cases h2
      simpa [valid64] using dumpsList_valid64 xs js hjs
  | PyVal.frozenset xs, j => by
      intro h
      simp only [dumpsTree] at h
      obtain ⟨js, hjs, h2⟩ := bindOkInv h
      cases h2
      simpa [valid64] using dumpsList_valid64 xs js hjs
  | PyVal.object ty, j => by intro h; simp [dumpsTree] at h

/-- `dumpsTree_valid64` over list contents. -/
theorem dumpsList_valid64 :
    ∀ xs js, dumpsList xs = Except.ok js → valid64List js = true
  | [], js => by intro h; simp [dumpsList] at h; subst h; rfl
  | x :: xs, js => by
      intro h
      simp only [dumpsList] at h
      obtain ⟨j, hj, h2⟩ := bindOkInv h
      obtain ⟨js', hjs, h3⟩ := bindOkInv h2
      cases h3
      simp [valid64List, dumpsTree_valid64 x j hj, dumpsList_valid64 xs js' hjs]

/-- `dumpsTree_valid64` over dict contents. -/
theorem dumpsDict_valid64 :
    ∀ kvs js, dumpsDict kvs = Except.ok js → valid64Obj js = true
  | [], js => by intro h; simp [dumpsDict] at h; subst h; rfl
  | (k, v) :: kvs, js => by
      intro h
      simp only [dumpsDict] at h
      obtain ⟨j, hj, h2⟩ := bindOkInv h
      obtain ⟨js', hjs, h3⟩ := bindOkInv h2
      cases h3
      simp [valid64Obj, dumpsTree_valid64 v j hj, dumpsDict_valid64 kvs js' hjs]

end

mutual

/-- Serializing the deserialization of an emitted document gives the
document back: `dumps (loads j) = ok j` whenever `j`'s integer leaves are
in the 64-bit window so that `dumps` accepts them. -/
theorem loads_dumps :
    ∀ j, valid64 j = true → dumpsTree (loadsTree j) = Except.ok j
  | Json.null, _ => by simp [loadsTree, dumpsTree]
  | Json.bool b, _ => by simp [loadsTree, dumpsTree]
  | Json.int n, h => by
      simp only [valid64, decide_eq_true_eq] at h
      simp only [loadsTree, dumpsTree, dumpInt, if_pos h]
  | Json.float q, _ => by simp [loadsTree, dumpsTree]
  | Json.str s, _ => by simp [loadsTree, dumpsTree]
  | Json.arr xs, h => by
      simp only [valid64] at h
      simp only [loadsTree, dumpsTree, loads_dumpsList xs h]
      rfl
  | Json.obj kvs, h => by
      simp only [valid64] at h
      simp only [loadsTree, dumpsTree, loads_dumpsObj kvs h]
      rfl

/-- `loads_dumps` over array contents. -/
theorem loads_dumpsList :
    ∀ xs, valid64List xs = true → dumpsList (loadsList xs) = Except.ok xs
  | [], _ => by simp [loadsList, dumpsList]
  | x :: xs, h => by
      simp only [valid64List, Bool.and_eq_true] at h
      simp only [loadsList, dumpsList, loads_dumps x h.1, loads_dumpsList xs h.2]
      rfl

/-- `loads_dumps` over object contents. -/
theorem loads_dumpsObj :
    ∀ kvs, valid64Obj kvs = true → dumpsDict (loadsObj kvs) = Except.ok kvs
  | [], _ => by simp [loadsObj, dumpsDict]
  | (k, v) :: kvs, h => by
      simp only [valid64Obj, Bool.and_eq_true] at h
      simp only [loadsObj, dumpsDict, loads_dumps v h.1, loads_dumpsObj kvs h.2]
      rfl

end

mutual

/-- A set-free value is seen identically by every run: reordering set
enumerations is the identity on a value without sets. -/
theorem reorderSets_setFree (ord : SetOrd) :
    ∀ x, setFree x = true → reorderSets ord x = x
  | PyVal.none, _ => by simp [reorderSets]
  | PyVal.boolean b, _ => by simp [reorderSets]
  | PyVal.int n, _ => by simp [reorderSets]
  | PyVal.float q, _ => by simp [reorderSets]
  | PyVal.str s, _ => by simp [reorderSets]
  | PyVal.list xs, h => by
      simp only [setFree] at h
      simp only [reorderSets, reorderList_setFree ord xs h]
  | PyVal.dict kvs, h => by
      simp only [setFree] at h
      simp only [reorderSets, reorderDict_setFree ord kvs h]
  | PyVal.datetime dt, _ => by simp [reorderSets]
  | PyVal.date d, _ => by simp [reorderSets]
  | PyVal.time t, _ => by simp [reorderSets]
  | PyVal.uuid u, _ => by simp [reorderSets]
  | PyVal.decimal d, _ => by simp [reorderSets]
  | PyVal.timedelta td, _ => by simp [reorderSets]
  | PyVal.bytes bs, _ => by simp [reorderSets]
  | PyVal.memoryview bs, _ => by simp [reorderSets]
  | PyVal.set xs, h => by simp [setFree] at h
  | PyVal.frozenset xs, h => by simp [setFree] at h
  | PyVal.object ty, _ => by simp [reorderSets]
termination_by x => sizeOf x
decreasing_by all_goals (simp_wf; try omega)

/-- `reorderSets_setFree` over list contents. -/
theorem reorderList_setFree (ord : SetOrd) :
    ∀ xs, setFreeList xs = true → reorderList ord xs = xs
  | [], _ => by simp [reorderList]
  | x :: xs, h => by
      simp only [setFreeList, Bool.and_eq_true] at h
      simp only [reorderList, reorderSets_setFree ord x h.1, reorderList_setFree ord xs h.2]
termination_by xs => sizeOf xs
decreasing_by all_goals (simp_wf; try omega)

/-- `reorderSets_setFree` over dict contents. -/
theorem reorderDict_setFree (ord : SetOrd) :
    ∀ kvs, setFreeDict kvs = true → reorderDict ord kvs = kvs
  | [], _ => by simp [reorderDict]
  | (k, v) :: kvs, h => by
      simp only [setFreeDict, Bool.and_eq_true] at h
      simp only [reorderDict, reorderSets_setFree ord v h.1, reorderDict_setFree ord kvs h.2]
termination_by kvs => sizeOf kvs
decreasing_by all_goals (simp_wf; try omega)

end

/-- Replacing one list element by one that serializes identically leaves
the list serialization unchanged. -/
theorem dumpsList_congrMid (a b : PyVal)
    (hab : dumpsTree a = dumpsTree b) :
    ∀ pre post, dumpsList (pre ++ a :: post) = dumpsList (pre ++ b :: post)
  | [], post => by simp only [List.nil_append, dumpsList, hab]
  | x :: pre, post => by
      simp only [List.cons_append, dumpsList, List.append_eq]
      rw [dumpsList_congrMid a b hab pre post]

/-- Replacing one dict value by one that serializes identically leaves
the dict serialization unchanged. -/
theorem dumpsDict_congrMid (k : String) (a b : PyVal)
    (hab : dumpsTree a = dumpsTree b) :
    ∀ pre post, dumpsDict (pre ++ (k, a) :: post) = dumpsDict (pre ++ (k, b) :: post)
  | [], post => by simp only [List.nil_append, dumpsDict, hab]
  | (k', v') :: pre, post => by
      simp only [List.cons_append, dumpsDict, List.append_eq]
      rw [dumpsDict_congrMid k a b hab pre post]

/-- Serialization is a congruence for one-hole contexts: plugging two
values that serialize identically into the same context gives identical
serializations. -/
theorem dumpsTree_fillCongr (a b : PyVal)
    (hab : dumpsTree a = dumpsTree b) :
    ∀ c : Ctx, dumpsTree (c.fill a) = dumpsTree (c.fill b)
  | Ctx.hole => hab
  | Ctx.inList pre c post => by
      simp only [Ctx.fill, dumpsTree,
        dumpsList_congrMid (c.fill a) (c.fill b) (dumpsTree_fillCongr a b hab c) pre post]
  | Ctx.inDict pre k c post => by
      simp only [Ctx.fill, dumpsTree,
        dumpsDict_congrMid k (c.fill a) (c.fill b) (dumpsTree_fillCongr a b hab c) pre post]

/-- A hex digit of a value below 16 is a lowercase hexadecimal character. -/
theorem hexChar_isLowerHex (n : Nat) (h : n < 16) : isLowerHexDigit (hexChar n) = true := by
  interval_cases n <;> decide

/-- `bytes.hex` emits two characters per byte. -/
theorem bytesHex_length (bs : List (Fin 256)) : (bytesHex bs).length = 2 * bs.length := by
  induction bs with
  | nil => rfl
  | cons b bs ih =>
      simp only [bytesHex, List.foldr, String.length] at ih ⊢
      simp only [List.length_cons] at ih ⊢
      omega

/-- Every character `bytes.hex` emits is a lowercase hex digit. -/
theorem bytesHex_lowerHex (bs : List (Fin 256)) :
    ∀ c ∈ (bytesHex bs).data, isLowerHexDigit c = true := by
  induction bs with
  | nil => intro c hc; simp [bytesHex] at hc
  | cons b bs ih =>
      intro c hc
      simp only [bytesHex, List.foldr, List.mem_cons] at hc
      rcases hc with hc | hc | hc
      · exact hc ▸ hexChar_isLowerHex _ (by have := b.isLt; omega)
      · exact hc ▸ hexChar_isLowerHex _ (by have := b.isLt; omega)
      · exact ih c hc

/-- A rational is an integer (denominator 1) iff it equals its own
truncation toward zero. -/
theorem den_one_iff_trunc (q : Rat) : q.den = 1 ↔ q = (pyTrunc q : Rat) := by
  constructor
  · intro h
    have hq : (q.num : Rat) = q := (Rat.den_eq_one_iff q).1 h
    unfold pyTrunc
    split
    · rw [← hq, Int.floor_intCast]
    · rw [← hq, Int.ceil_intCast]
  · intro h
    have := congrArg Rat.den h
    simpa [Rat.den_intCast] using this

/-- A rational is an integer iff it equals its own rounding (so the tie
rule of `to_integral_value` is irrelevant to the equality test). -/
theorem den_one_iff_round (q : Rat) : q.den = 1 ↔ q = (round q : Rat) := by
  constructor
  · intro h
    have hq : (q.num : Rat) = q := (Rat.den_eq_one_iff q).1 h
    rw [← hq, round_intCast]
  · intro h
    have := congrArg Rat.den h
    simpa [Rat.den_intCast] using this

/-- Serialized objects carry exactly the input keys, in input order. -/
theorem dumpsDict_keys :
    ∀ kvs js, dumpsDict kvs = Except.ok js → js.map Prod.fst = kvs.map Prod.fst
  | [], js => by intro h; simp [dumpsDict] at h; subst h; rfl
  | (k, v) :: kvs, js => by
      intro h
      simp only [dumpsDict] at h
      obtain ⟨j, hj, h2⟩ := bindOkInv h
      obtain ⟨js', hjs, h3⟩ := bindOkInv h2
      cases h3
      simp [dumpsDict_keys kvs js' hjs]

/-- **C1.** For every decimal input `d`, `normalize` (the decimal rule of
the codec) returns an integer — whose value is `d`'s value — if and only
if `d`'s fractional part is exactly zero, i.e. `d` equals its own
truncation to an integer; otherwise it returns a floating-point number
equal to `d`'s value. -/
theorem claim_C1_decimal_normalize (d : PyDecimal) :
    ((∃ n : Int, decimalDefault d = PyVal.int n ∧ (n : Rat) = decValue d) ↔
      decValue d = (pyTrunc (decValue d) : Rat)) ∧
    (decValue d ≠ (pyTrunc (decValue d) : Rat) →
      decimalDefault d = PyVal.float (decValue d)) := by
  constructor
  · constructor
    · rintro ⟨n, hn, -⟩
      by_cases hc : decValue d = (round (decValue d) : Rat)
      · exact (den_one_iff_trunc _).1 ((den_one_iff_round _).2 hc)
      · simp only [decimalDefault, if_neg hc] at hn
        cases hn
    · intro h
      have hr : decValue d = (round (decValue d) : Rat) :=
        (den_one_iff_round _).1 ((den_one_iff_trunc _).2 h)
      exact ⟨pyTrunc (decValue d), by simp only [decimalDefault, if_pos hr], h.symm⟩
  · intro h
    have hc : ¬ decValue d = (round (decValue d) : Rat) := fun hr =>
      h ((den_one_iff_trunc _).1 ((den_one_iff_round _).2 hr))
    simp only [decimalDefault, if_neg hc]

/-- Witness for C1 at `Decimal("19.99")` (= mantissa 1999, exponent −2):
the fractional part is nonzero and the result is the float of its value. -/
theorem claim_C1_witness :
    decValue ⟨1999, -2⟩ ≠ (pyTrunc (decValue ⟨1999, -2⟩) : Rat) ∧
    decimalDefault ⟨1999, -2⟩ = PyVal.float (decValue ⟨1999, -2⟩) := by
  have hne : decValue ⟨1999, -2⟩ ≠ (pyTrunc (decValue ⟨1999, -2⟩) : Rat) := by
    norm_num [decValue, pyTrunc]
  exact ⟨hne, (claim_C1_decimal_normalize ⟨1999, -2⟩).2 hne⟩

/-- **C2.** `explain_query` with a non-empty hypothetical-index list on a
database without the extension returns the extension check's detail
message as the response text (it does not raise) and never invokes a
plan-generation path. -/
theorem claim_C2_missing_extension (env : ExplainEnv) (sql : String) (analyze : Bool)
    (specs : List HypotheticalIndexSpec) (hne : specs ≠ [])
    (hmiss : env.hypopgInstalled = false) :
    explain_query env sql analyze specs = (env.hypopgDetail, false) := by
  unfold explain_query
  rw [if_neg (by simpa using hne), hmiss]
  simp

/-- Witness for C2: the integration test's scenario (missing `hypopg`,
one index hint on `users(email)`). -/
theorem claim_C2_witness :
    explain_query ⟨false, "The hypopg extension is required", "p", "a", "h"⟩
        "SELECT * FROM users WHERE email = ?" false [⟨"users", ["email"]⟩]
      = ("The hypopg extension is required", false) :=
  claim_C2_missing_extension _ _ _ _ (by simp) rfl

/-- **C3.** Round-trip: whenever serialization succeeds, serializing the
normalized value yields the very same JSON text:
`serialize (normalize x) = serialize x`. -/
theorem claim_C3_serialize_roundtrip (x y : PyVal)
    (h : to_jsonable x = Except.ok y) : to_json y = to_json x := by
  unfold to_jsonable at h
  cases hj : dumpsTree x with
  | error e => rw [hj] at h; cases h
  | ok j =>
      rw [hj] at h
      have hy : y = loadsTree j := by cases h; rfl
      unfold to_json
      rw [hj, hy, loads_dumps j (dumpsTree_valid64 x j hj)]

/-- Witness for C3 on a mixed list (whole-number decimal and a bytea). -/
theorem claim_C3_witness :
    to_json (PyVal.list [PyVal.int 42, PyVal.str "cafe"])
      = to_json (PyVal.list [PyVal.decimal ⟨42, 0⟩, PyVal.bytes [202, 254]]) :=
  claim_C3_serialize_roundtrip _ _ (by
    simp [to_jsonable, dumpsTree, dumpsList, dumpInt, decValue, pyTrunc, bytesHex,
      Bind.bind, Except.bind, Except.map, loadsTree, loadsList]
    rfl)

/-- **C4.** A value of a type neither natively representable nor covered
by the codec's rule table makes `serialize` fail with the `TypeError`
carrying the offending type's name — no stringification or other silent
coercion. -/
theorem claim_C4_unserializable (ty : String) :
    to_json (PyVal.object ty)
      = Except.error ("Object of type " ++ ty ++ " is not JSON serializable") := by
  simp [to_json, dumpsTree, Except.map]

/-- **C5.** Every binary input (bytes or any byte-buffer view) of byte
length `n` normalizes to a lowercase hexadecimal string whose length is
exactly `2 * n`. -/
theorem claim_C5_binary_hex (bs : List (Fin 256)) :
    dumpsTree (PyVal.bytes bs) = Except.ok (Json.str (bytesHex bs)) ∧
    dumpsTree (PyVal.memoryview bs) = Except.ok (Json.str (bytesHex bs)) ∧
    (bytesHex bs).length = 2 * bs.length ∧
    ∀ c ∈ (bytesHex bs).data, isLowerHexDigit c = true :=
  ⟨by simp [dumpsTree], by simp [dumpsTree], bytesHex_length bs, bytesHex_lowerHex bs⟩

/-- Witness for C5 at `b"\xde\xad\xbe\xef"`: hex length 8 and a sample
character is a lowercase hex digit. -/
theorem claim_C5_witness :
    (bytesHex [222, 173, 190, 239]).length = 2 * 4 ∧ isLowerHexDigit 'd' = true := by
  have h := claim_C5_binary_hex [222, 173, 190, 239]
  exact ⟨by simpa using h.2.2.1, h.2.2.2 'd' (by decide)⟩

/-- **C6.** Every time interval normalizes to its canonical human-readable
string form (CPython `str(timedelta)`), never a numeric duration; a
timedelta of 1 day, 2 hours, 30 minutes gives `"1 day, 2:30:00"`. -/
theorem claim_C6_timedelta_string (td : PyTimedelta) :
    dumpsTree (PyVal.timedelta td) = Except.ok (Json.str (strTimedelta td)) ∧
    strTimedelta ⟨1, ⟨9000, by norm_num⟩, ⟨0, by norm_num⟩⟩ = "1 day, 2:30:00" :=
  ⟨by simp [dumpsTree], by rfl⟩

/-- **C7.** `serialize` produces canonical pretty-printed JSON: mapping
key order is preserved exactly as provided, and the text follows the
2-space indentation convention (pinned by the rendering of a nested
example). -/
theorem claim_C7_canonical_json :
    (∀ (kvs : List (String × PyVal)) (js : List (String × Json)),
        dumpsDict kvs = Except.ok js → js.map Prod.fst = kvs.map Prod.fst) ∧
    to_json (PyVal.dict [("a", PyVal.str "b"),
        ("c", PyVal.dict [("d", PyVal.boolean true)]),
        ("e", PyVal.list [PyVal.int 1, PyVal.int 2])])
      = Except.ok "\x7b\n  \"a\": \"b\",\n  \"c\": \x7b\n    \"d\": true\n  \x7d,\n  \"e\": [\n    1,\n    2\n  ]\n\x7d" := by
  refine ⟨dumpsDict_keys, ?_⟩
  simp only [to_json, Except.map, dumpsTree, dumpsDict, dumpsList, dumpInt,
    Bind.bind, Except.bind]
  norm_num
  simp [renderJson, renderObj, renderArr, escapeString, escapeChar, spaces]
  rfl

/-- Witness for C7: key order of a one-entry dict is preserved. -/
theorem claim_C7_witness :
    ([("k", Json.int 1)] : List (String × Json)).map Prod.fst
      = ([("k", PyVal.int 1)] : List (String × PyVal)).map Prod.fst :=
  claim_C7_canonical_json.1 [("k", PyVal.int 1)] [("k", Json.int 1)]
    (by simp [dumpsDict, dumpsTree, dumpInt, Bind.bind, Except.bind])

/-- **C8.** The codec is deterministic on every input containing no
unordered (set-like) collection: two runs, under arbitrary set
iteration-order environments `f` and `g`, produce identical
serializations and normalizations of such an input (and agree with the
plain value), since reordering set enumerations does not touch a set-free
value.  The embedding is pure, so the absence of input mutation and other
side effects is inherent. -/
theorem claim_C8_deterministic (f g : SetOrd) (x : PyVal) (h : setFree x = true) :
    to_json (reorderSets f x) = to_json (reorderSets g x) ∧
    to_jsonable (reorderSets f x) = to_jsonable (reorderSets g x) ∧
    to_json (reorderSets f x) = to_json x := by
  rw [reorderSets_setFree f x h, reorderSets_setFree g x h]
  exact ⟨rfl, rfl, rfl⟩

/-- Witness for C8: two different enumeration orders serialize a set-free
value identically. -/
theorem claim_C8_witness :
    to_json (reorderSets idOrd (PyVal.list [PyVal.int 1, PyVal.str "a"]))
      = to_json (reorderSets revOrd (PyVal.list [PyVal.int 1, PyVal.str "a"])) :=
  (claim_C8_deterministic idOrd revOrd (PyVal.list [PyVal.int 1, PyVal.str "a"])
    (by rfl)).1

/-- **C9.** `normalize` is idempotent: whenever it succeeds its output is
a fixed point, because the output contains only JSON-native kinds, which
every codec rule leaves unchanged. -/
theorem claim_C9_normalize_idempotent (x y : PyVal)
    (h : to_jsonable x = Except.ok y) : to_jsonable y = Except.ok y := by
  unfold to_jsonable at h ⊢
  cases hj : dumpsTree x with
  | error e => rw [hj] at h; cases h
  | ok j =>
      rw [hj] at h
      have hy : y = loadsTree j := by cases h; rfl
      rw [hy, loads_dumps j (dumpsTree_valid64 x j hj)]
      rfl

/-- Witness for C9 on a dict containing a decimal. -/
theorem claim_C9_witness :
    to_jsonable (PyVal.dict [("count", PyVal.int 1000)])
      = Except.ok (PyVal.dict [("count", PyVal.int 1000)]) :=
  claim_C9_normalize_idempotent (PyVal.dict [("count", PyVal.decimal ⟨1000, 0⟩)]) _ (by
    simp [to_jsonable, dumpsTree, dumpsDict, dumpInt, decValue, pyTrunc,
      Bind.bind, Except.bind, Except.map, loadsTree, loadsObj])

/-- **C10.** Timestamps, dates, times of day and UUIDs are normalized to
their canonical string forms (ISO-8601 for the temporal kinds, hyphenated
lowercase for UUIDs) instead of failing, and this holds at any nesting
depth: plugging such a value into an arbitrary list/dict context
serializes exactly as plugging in its canonical string; the canonical
forms are pinned by the test suite's concrete vectors. -/
theorem claim_C10_datetime_canonical (c : Ctx) (v : PyVal)
    (h : isDatetimeLike v = true) :
    to_jsonable (c.fill v) = to_jsonable (c.fill (PyVal.str (canonicalStr v))) ∧
    to_jsonable v = Except.ok (PyVal.str (canonicalStr v)) ∧
    formatDatetime ⟨2024, 1, 15, 10, 30, 0, 0, Option.some 0⟩ = "2024-01-15T10:30:00+00:00" ∧
    formatDate ⟨2024, 6, 15⟩ = "2024-06-15" ∧
    formatTime ⟨14, 30, 0, 0⟩ = "14:30:00" ∧
    formatUuid 0x12345678123456781234567812345678 = "12345678-1234-5678-1234-567812345678" := by
  have hv : dumpsTree v = Except.ok (Json.str (canonicalStr v)) := by
    cases v <;> simp [isDatetimeLike] at h <;> simp [dumpsTree, canonicalStr]
  have hstr : dumpsTree (PyVal.str (canonicalStr v)) = Except.ok (Json.str (canonicalStr v)) := by
    simp [dumpsTree]
  refine ⟨?_, ?_, by rfl, by rfl, by rfl, by rfl⟩
  · unfold to_jsonable
    rw [dumpsTree_fillCongr v (PyVal.str (canonicalStr v)) (hv.trans hstr.symm) c]
  · unfold to_jsonable
    rw [hv]
    rfl

/-- Witness for C10: a date nested one level deep in a list serializes as
its ISO string. -/
theorem claim_C10_witness :
    to_jsonable (PyVal.date ⟨2024, 6, 15⟩)
      = Except.ok (PyVal.str "2024-06-15") := by
  have h := claim_C10_datetime_canonical Ctx.hole (PyVal.date ⟨2024, 6, 15⟩) (by rfl)
  simpa [canonicalStr, formatDate] using h.2.1

end PostgresMcp
